import Mathlib

/-!
# Verification of the LSP connection framing layer

Shallow embedding of `src/lsp/connection.cpp` (namespace `lsp`, class
`Connection`): the byte-stream framing codec for JSON-RPC messages.
Streams are modelled as `List Char` (one `Char` per byte); the input
stream is passed explicitly and each operation returns the remaining
stream, which models the read cursor.  C++ exceptions become an
`Except Err` result carrying the remaining stream at the throw point;
`assert` becomes an `Option` result (`none` = invariant failure).
The external collaborators (JSON codec, JSON-RPC message model) are kept
abstract: the receive path returns the raw body bytes it would hand to
`json::parse`, and the send path takes the serialized body as input.
-/

deriving instance DecidableEq for Except

namespace LspConn

/-- The two error kinds of the layer: `ConnectionError` ("Connection lost",
stream exhausted where bytes were required) and `ProtocolError` (framing
violation), each carrying the exception's message text. -/
inductive Err where
  | ConnectionError : String → Err
  | ProtocolError : String → Err
deriving Repr, DecidableEq

/-- `true` exactly for the `ConnectionError` variant. -/
def Err.isConn : Err → Bool
  | .ConnectionError _ => true
  | .ProtocolError _ => false

/-- `true` when a result is an error of the `ConnectionError` variant. -/
def exceptIsConn {α : Type} : Except Err α → Bool
  | .error e => e.isConn
  | .ok _ => false

/-- Modelled from the spec: `MessageHeader` is declared in `connection.h`,
which is not under `src/`.  Per the spec (§3), `contentType` defaults to the
fixed MIME value naming the protocol payload type with `utf-8` charset when
the field is absent, and `contentLength` starts at zero until a
`Content-Length` field overwrites it. -/
structure MessageHeader where
  contentLength : Nat := 0
  contentType : List Char := "application/vscode-jsonrpc; charset=utf-8".toList
deriving Repr, DecidableEq

/-- Whitespace per `std::isspace` in the default locale, used by the trim
model: space, tab, newline, vertical tab, form feed, carriage return. -/
def isWsChar (c : Char) : Bool :=
  c = ' ' || c = '\t' || c = '\n' || c = '\x0b' || c = '\x0c' || c = '\r'

/-- Modelled from the spec: `util::str::trimView` (declared in
`lsp/util/str.h`, not under `src/`) removes leading and trailing whitespace
("text before it (trimmed) is the field name, text after (trimmed) is the
value", spec §4.1). -/
def trimList (s : List Char) : List Char :=
  ((s.dropWhile isWsChar).reverse.dropWhile isWsChar).reverse

/-- `std::getline(m_in, lineData)`: consume up to and including the first
line feed; the returned line excludes the line feed.  When the stream ends
first, the whole remainder is the line. -/
def getline : List Char → List Char × List Char
  | [] => ([], [])
  | c :: cs =>
    if c = '\n' then ([], cs)
    else ((getline cs).1.cons c, (getline cs).2)

/-- `line.find(':')` followed by the two `substr` calls: split a line at its
first colon; `none` when the line has no colon. -/
def splitAtColon : List Char → Option (List Char × List Char)
  | [] => none
  | c :: cs =>
    if c = ':' then some ([], cs)
    else (splitAtColon cs).map fun p => (p.1.cons c, p.2)

/-- The value of a list of decimal digit characters, most significant
first. -/
def digitsToNat (ds : List Char) : Nat :=
  ds.foldl (fun acc c => acc * 10 + (c.toNat - 48)) 0

/-- `std::from_chars(value.data(), value.data() + value.size(), n)` for
`n : std::size_t`: parse the maximal run of leading decimal digits.  `none`
when no leading digit exists (`invalid_argument`) or the run's value does not
fit `std::size_t` (`result_out_of_range`); in both cases `n` is left
unmodified, which the caller models by keeping the previous value. -/
def fromCharsNat (value : List Char) : Option Nat :=
  let ds := value.takeWhile Char.isDigit
  if ds = [] then none
  else if digitsToNat ds < 2 ^ 64 then some (digitsToNat ds) else none

/-- `Connection::readNextMessageHeaderField`, lines 104-115: the processing
of one extracted header line (the eof check and the `std::getline` call that
produce the line are modelled at the call site in `readMessageHeader`).
The line is split at its first `:` when one exists; the trimmed key selects
the field: `Content-Length` is parsed with `from_chars` (kept on conversion
failure), `Content-Type` stores the trimmed value verbatim, anything else —
including a line with no colon — leaves the header unchanged. -/
def readNextMessageHeaderField (line : List Char) (hdr : MessageHeader) :
    MessageHeader :=
  match splitAtColon line with
  | none => hdr
  | some (rawKey, rawValue) =>
    let key := trimList rawKey
    let value := trimList rawValue
    if key = "Content-Length".toList then
      match fromCharsNat value with
      | some n => { hdr with contentLength := n }
      | none => hdr
    else if key = "Content-Type".toList then
      { hdr with contentType := value }
    else hdr

theorem getline_snd_length_le : ∀ s : List Char, (getline s).2.length ≤ s.length := by
  intro s
  induction s with
  | nil => simp [getline]
  | cons c cs ih =>
    simp only [getline]
    by_cases hc : c = '\n'
    · simp [hc]
    · simp only [hc, if_false]
      exact Nat.le_succ_of_le ih

theorem getline_snd_length_lt (c : Char) (cs : List Char) :
    (getline (c :: cs)).2.length < (c :: cs).length := by
  simp only [getline]
  by_cases hc : c = '\n'
  · simp [hc]
  · simp only [hc, if_false, List.length_cons]
    exact Nat.lt_succ_of_le (getline_snd_length_le cs)

/-- `Connection::readMessageHeader`, lines 81-95: loop over header field
lines until the next character is a carriage return; then the terminator
must be exactly `\r\n` or a `ProtocolError` is thrown (the `\r` already
consumed, the offending next character only peeked).  When the stream is
empty inside the loop, the field reader's eof check throws
`ConnectionError`.  Returns the header and the remaining stream. -/
def readMessageHeader (s : List Char) (hdr : MessageHeader) :
    Except Err MessageHeader × List Char :=
  match s with
  | [] => (.error (.ConnectionError "Connection lost"), [])
  | c :: cs =>
    if c = '\r' then
      match cs with
      | '\n' :: rest => (.ok hdr, rest)
      | _ => (.error (.ProtocolError "Invalid message header format"), cs)
    else
      readMessageHeader (getline (c :: cs)).2
        (readNextMessageHeaderField (getline (c :: cs)).1 hdr)
termination_by s.length
decreasing_by exact getline_snd_length_lt c cs

/-- `contentType.find(charsetKey)`: index of the first occurrence of
`pat` in `s` starting at offset `i`, `none` when absent. -/
def findSubstrFrom (pat : List Char) : List Char → Nat → Option Nat
  | [], i => if pat.isPrefixOf [] then some i else none
  | c :: rest, i =>
    if pat.isPrefixOf (c :: rest) then some i
    else findSubstrFrom pat rest (i + 1)

/-- Index of the first occurrence of `pat` in `s`. -/
def findSubstr (pat s : List Char) : Option Nat :=
  findSubstrFrom pat s 0

/-- `Connection::receiveMessage`, lines 27-39: content-type validation on
the (possibly defaulted) header value.  The whole value must start with
`application/vscode-jsonrpc`; when `charset=` occurs in the value, the text
after it up to the next `;`, trimmed, must be exactly `utf-8` or `utf8`. -/
def validateContentType (contentType : List Char) : Except Err Unit :=
  if ("application/vscode-jsonrpc".toList).isPrefixOf contentType then
    match findSubstr ("charset=".toList) contentType with
    | none => .ok ()
    | some idx =>
      let afterKey := contentType.drop (idx + 8)
      let charset := trimList (afterKey.takeWhile (· ≠ ';'))
      if charset = "utf-8".toList ∨ charset = "utf8".toList then .ok ()
      else .error (.ProtocolError
        ("Unsupported or invalid character encoding: " ++ String.mk charset))
  else
    .error (.ProtocolError
      ("Unsupported or invalid content type: " ++ String.mk contentType))

/-- `Connection::receiveMessage`, lines 13-42, up to the hand-off of the raw
body to the external `json::parse` / `jsonrpc::messageFromJson`
collaborators (whose results and failures this layer passes through
unchanged): initial eof check, header parse, read of exactly
`contentLength` bytes (short reads zero-fill, as `std::string::resize`
does), then content-type validation.  Returns the body handed to the
parser, or the error, together with the remaining stream. -/
def receiveMessage (s : List Char) : Except Err (List Char) × List Char :=
  match s with
  | [] => (.error (.ConnectionError "Connection lost"), [])
  | c :: cs =>
    match readMessageHeader (c :: cs) {} with
    | (.error e, rest) => (.error e, rest)
    | (.ok hdr, rest) =>
      let content := rest.take hdr.contentLength ++
        List.replicate (hdr.contentLength - rest.length) '\x00'
      let rest2 := rest.drop hdr.contentLength
      match validateContentType hdr.contentType with
      | .error e => (.error e, rest2)
      | .ok _ => (.ok content, rest2)

/-- The output stream `m_out`: an internal buffer plus the bytes already
flushed to the peer.  `write` appends to the buffer, `flush` moves the
buffer to the flushed part. -/
structure OutStream where
  buffered : List Char := []
  flushed : List Char := []
deriving Repr, DecidableEq

/-- `m_out.write(data, size)`. -/
def streamWrite (o : OutStream) (data : List Char) : OutStream :=
  { o with buffered := o.buffered ++ data }

/-- `m_out.flush()`. -/
def streamFlush (o : OutStream) : OutStream :=
  { buffered := [], flushed := o.flushed ++ o.buffered }

/-- `std::to_string` on an unsigned integer: standard decimal digits, most
significant first. -/
def natDigits (n : Nat) : List Char :=
  if n < 10 then [Nat.digitChar n]
  else natDigits (n / 10) ++ [Nat.digitChar (n % 10)]
decreasing_by exact Nat.div_lt_self (by omega) (by omega)

/-- `Connection::writeMessageHeader`, lines 74-79: assert the invariants
(`contentLength > 0`, non-empty `contentType`), then write exactly
`Content-Length: <n>\r\n\r\n`.  `none` models an assertion failure. -/
def writeMessageHeader (hdr : MessageHeader) (o : OutStream) :
    Option OutStream :=
  if hdr.contentLength > 0 ∧ hdr.contentType ≠ [] then
    some (streamWrite o ("Content-Length: ".toList ++
      natDigits hdr.contentLength ++ "\r\n\r\n".toList))
  else none

/-- `Connection::writeMessage`, lines 66-72: build a header from the body's
byte length, write the header, write the body, flush. -/
def writeMessage (content : List Char) (o : OutStream) : Option OutStream :=
  (writeMessageHeader { contentLength := content.length } o).map
    fun o1 => streamFlush (streamWrite o1 content)

/-- `Connection::writeJsonMessage`, lines 59-64, taking the already
serialized text (`json::stringify` is an external collaborator): assert the
serialization is non-empty, then write the framed message.  The
`MessageHeader` constructed on line 62 is unused by the source and is not
modelled. -/
def writeJsonMessage (contentStr : List Char) (o : OutStream) :
    Option OutStream :=
  if contentStr = [] then none
  else writeMessage contentStr o

/-- `Connection::sendMessage`, lines 44-46, with the composition of the
external `message.toJson()` and `json::stringify` abstracted as
`stringifyToJson`. -/
def sendMessage {Msg : Type} (stringifyToJson : Msg → List Char) (m : Msg)
    (o : OutStream) : Option OutStream :=
  writeJsonMessage (stringifyToJson m) o

/-- `Connection::sendMessageBatch`, lines 48-57, with the external
construction of the JSON array from the batch and its serialization
abstracted as `stringifyBatch`. -/
def sendMessageBatch {Msg : Type} (stringifyBatch : List Msg → List Char)
    (batch : List Msg) (o : OutStream) : Option OutStream :=
  writeJsonMessage (stringifyBatch batch) o

/-- The claim C2's condition, in the spec's words: the stream is exhausted
(runs out of bytes) before a header field line or before reaching the
blank-line header terminator — that is, stripping complete field lines
(none of which begins with a carriage return) empties the stream without
ever reaching a line that begins with `\r`.  The empty stream itself
("no byte at all is available at the start of the call") satisfies it. -/
def exhaustsBeforeTerminator : List Char → Bool
  | [] => true
  | c :: cs =>
    if c = '\r' then false
    else exhaustsBeforeTerminator (getline (c :: cs)).2
termination_by s => s.length
decreasing_by exact getline_snd_length_lt c cs

/-! ## Helper lemmas about the embedded operations -/

theorem getline_append (l r : List Char) (h : '\n' ∉ l) :
    getline (l ++ '\n' :: r) = (l, r) := by
  induction l with
  | nil => simp [getline]
  | cons a as ih =>
    have ha : a ≠ '\n' := fun hc => h (hc ▸ List.mem_cons_self a as)
    have has : '\n' ∉ as := fun hc => h (List.mem_cons_of_mem a hc)
    simp [getline, ha, ih has]

theorem splitAtColon_append (k v : List Char) (hk : ':' ∉ k) :
    splitAtColon (k ++ ':' :: v) = some (k, v) := by
  induction k with
  | nil => simp [splitAtColon]
  | cons a as ih =>
    have ha : a ≠ ':' := fun hc => hk (hc ▸ List.mem_cons_self a as)
    have has : ':' ∉ as := fun hc => hk (List.mem_cons_of_mem a hc)
    simp [splitAtColon, ha, ih has]

theorem splitAtColon_eq_none (l : List Char) (h : ':' ∉ l) :
    splitAtColon l = none := by
  induction l with
  | nil => rfl
  | cons a as ih =>
    have ha : a ≠ ':' := fun hc => h (hc ▸ List.mem_cons_self a as)
    have has : ':' ∉ as := fun hc => h (List.mem_cons_of_mem a hc)
    simp [splitAtColon, ha, ih has]

theorem isWsChar_isDigit_false (c : Char) (h : isWsChar c = true) :
    c.isDigit = false := by
  simp only [isWsChar, Bool.or_eq_true, decide_eq_true_eq] at h
  rcases h with ((((rfl | rfl) | rfl) | rfl) | rfl) | rfl <;> decide

theorem isDigit_not_ws (c : Char) (h : c.isDigit = true) :
    isWsChar c = false := by
  by_contra hc
  have := isWsChar_isDigit_false c (by revert hc; cases isWsChar c <;> simp)
  rw [this] at h
  exact Bool.false_ne_true h

theorem trimList_clean (l : List Char) (hne : l ≠ [])
    (hall : ∀ c ∈ l, isWsChar c = false) :
    trimList (' ' :: (l ++ ['\x0d'])) = l := by
  obtain ⟨a, as, rfl⟩ := List.exists_cons_of_ne_nil hne
  have hd : List.dropWhile isWsChar (' ' :: (a :: as ++ ['\x0d'])) =
      a :: as ++ ['\x0d'] := by
    rw [List.dropWhile_cons, if_pos (by decide : isWsChar ' ' = true),
      List.cons_append, List.dropWhile_cons,
      if_neg (by simp [hall a (List.mem_cons_self a as)] : ¬(isWsChar a = true)),
      ← List.cons_append]
  unfold trimList
  rw [hd]
  have hrev : (a :: as ++ ['\x0d']).reverse = '\x0d' :: (a :: as).reverse := by
    simp
  rw [hrev, List.dropWhile_cons]
  have hw : isWsChar '\x0d' = true := by decide
  rw [if_pos hw]
  rcases hr : (a :: as).reverse with _ | ⟨b, bs⟩
  · exact absurd (List.reverse_eq_nil_iff.mp hr) (List.cons_ne_nil a as)
  · have hb : b ∈ a :: as := by
      have : b ∈ (a :: as).reverse := by rw [hr]; exact List.mem_cons_self b bs
      exact List.mem_reverse.mp this
    rw [List.dropWhile_cons, if_neg (by simp [hall b hb]), ← hr,
      List.reverse_reverse]

theorem digitChar_isDigit (m : Nat) (h : m < 10) :
    (Nat.digitChar m).isDigit = true := by
  interval_cases m <;> decide

theorem digitChar_toNat (m : Nat) (h : m < 10) :
    (Nat.digitChar m).toNat - 48 = m := by
  interval_cases m <;> decide

theorem natDigits_ne_nil (n : Nat) : natDigits n ≠ [] := by
  rw [natDigits]
  split <;> simp

theorem natDigits_all_digits (n : Nat) :
    ∀ c ∈ natDigits n, c.isDigit = true := by
  induction n using Nat.strong_induction_on with
  | _ n ih =>
    intro c hc
    rw [natDigits] at hc
    split at hc
    · next h =>
      rw [List.mem_singleton] at hc
      exact hc ▸ digitChar_isDigit n h
    · next h =>
      rcases List.mem_append.mp hc with h1 | h1
      · exact ih (n / 10) (Nat.div_lt_self (by omega) (by omega)) c h1
      · rw [List.mem_singleton] at h1
        exact h1 ▸ digitChar_isDigit (n % 10) (Nat.mod_lt n (by omega))

theorem digitsToNat_append_single (ds : List Char) (c : Char) :
    digitsToNat (ds ++ [c]) = digitsToNat ds * 10 + (c.toNat - 48) := by
  simp [digitsToNat, List.foldl_append]

theorem digitsToNat_natDigits (n : Nat) : digitsToNat (natDigits n) = n := by
  induction n using Nat.strong_induction_on with
  | _ n ih =>
    rw [natDigits]
    split
    · next h =>
      simp [digitsToNat, digitChar_toNat n h]
    · next h =>
      rw [digitsToNat_append_single,
        ih (n / 10) (Nat.div_lt_self (by omega) (by omega)),
        digitChar_toNat (n % 10) (Nat.mod_lt n (by omega))]
      omega

theorem takeWhile_all (p : Char → Bool) :
    ∀ l : List Char, (∀ c ∈ l, p c = true) → l.takeWhile p = l := by
  intro l h
  induction l with
  | nil => rfl
  | cons a as ih =>
    rw [List.takeWhile_cons, if_pos (h a (List.mem_cons_self a as))]
    rw [ih fun c hc => h c (List.mem_cons_of_mem a hc)]

theorem fromCharsNat_natDigits (n : Nat) (h : n < 2 ^ 64) :
    fromCharsNat (natDigits n) = some n := by
  simp only [fromCharsNat]
  rw [takeWhile_all Char.isDigit (natDigits n) (natDigits_all_digits n),
    if_neg (natDigits_ne_nil n), digitsToNat_natDigits,
    if_pos (by omega : n < 2 ^ 64)]

theorem readMessageHeader_nil (hdr : MessageHeader) :
    readMessageHeader [] hdr = (.error (.ConnectionError "Connection lost"), []) := by
  rw [readMessageHeader]

theorem readMessageHeader_term (cs : List Char) (hdr : MessageHeader) :
    readMessageHeader ('\x0d' :: '\n' :: cs) hdr = (.ok hdr, cs) := by
  rw [readMessageHeader]
  simp

theorem readMessageHeader_step (c : Char) (cs : List Char)
    (hdr : MessageHeader) (hc : c ≠ '\x0d') :
    readMessageHeader (c :: cs) hdr =
      readMessageHeader (getline (c :: cs)).2
        (readNextMessageHeaderField (getline (c :: cs)).1 hdr) := by
  conv_lhs => rw [readMessageHeader.eq_def]
  simp only [if_neg hc]

theorem exhaustsBeforeTerminator_nil : exhaustsBeforeTerminator [] = true := by
  rw [exhaustsBeforeTerminator]

theorem exhaustsBeforeTerminator_cr (cs : List Char) :
    exhaustsBeforeTerminator ('\x0d' :: cs) = false := by
  rw [exhaustsBeforeTerminator]
  simp

theorem exhaustsBeforeTerminator_step (c : Char) (cs : List Char)
    (hc : c ≠ '\x0d') :
    exhaustsBeforeTerminator (c :: cs) =
      exhaustsBeforeTerminator (getline (c :: cs)).2 := by
  rw [exhaustsBeforeTerminator, if_neg hc]

theorem writeMessage_eq (content : List Char) (o : OutStream)
    (h : content ≠ []) :
    writeMessage content o = some ⟨[],
      o.flushed ++ o.buffered ++ "Content-Length: ".toList ++
        natDigits content.length ++ "\r\n\r\n".toList ++ content⟩ := by
  have hpos : content.length > 0 := List.length_pos.mpr h
  simp only [writeMessage, writeMessageHeader]
  rw [if_pos ⟨hpos, by decide⟩]
  simp [streamWrite, streamFlush]

theorem writeMessage_none_iff (content : List Char) (o : OutStream) :
    writeMessage content o = none ↔ content = [] := by
  constructor
  · intro h
    by_contra hne
    rw [writeMessage_eq content o hne] at h
    exact Option.some_ne_none _ h
  · intro h
    subst h
    simp [writeMessage, writeMessageHeader]

theorem readMessageHeader_cr_nil (hdr : MessageHeader) :
    readMessageHeader ['\x0d'] hdr =
      (.error (.ProtocolError "Invalid message header format"), []) := by
  conv_lhs => rw [readMessageHeader.eq_def]
  simp

theorem readMessageHeader_cr_bad (c : Char) (cs : List Char)
    (hdr : MessageHeader) (h : c ≠ '\n') :
    readMessageHeader ('\x0d' :: c :: cs) hdr =
      (.error (.ProtocolError "Invalid message header format"), c :: cs) := by
  conv_lhs => rw [readMessageHeader.eq_def]
  simp only [reduceIte]
  split
  · next rest heq =>
    injection heq with h1 h2
    exact absurd h1 h
  · rfl

theorem validateContentType_not_conn (ct : List Char) :
    exceptIsConn (validateContentType ct) = false := by
  unfold validateContentType
  split
  · split
    · rfl
    · dsimp only
      split
      · rfl
      · rfl
  · rfl

theorem connErr_iff_fuel (fuel : Nat) :
    ∀ (s : List Char) (hdr : MessageHeader), s.length ≤ fuel →
      exceptIsConn (readMessageHeader s hdr).1 = exhaustsBeforeTerminator s := by
  induction fuel with
  | zero =>
    intro s hdr hlen
    have hs : s = [] := List.eq_nil_of_length_eq_zero (Nat.le_zero.mp hlen)
    subst hs
    rw [readMessageHeader_nil, exhaustsBeforeTerminator_nil]
    rfl
  | succ n ih =>
    intro s hdr hlen
    match s with
    | [] =>
      rw [readMessageHeader_nil, exhaustsBeforeTerminator_nil]
      rfl
    | c :: cs =>
      by_cases hc : c = '\x0d'
      · subst hc
        rw [exhaustsBeforeTerminator_cr]
        match cs with
        | [] => rw [readMessageHeader_cr_nil]; rfl
        | c2 :: cs2 =>
          by_cases h2 : c2 = '\n'
          · subst h2
            rw [readMessageHeader_term]
            rfl
          · rw [readMessageHeader_cr_bad c2 cs2 hdr h2]
            rfl
      · rw [readMessageHeader_step c cs hdr hc,
          exhaustsBeforeTerminator_step c cs hc]
        refine ih (getline (c :: cs)).2 _ ?_
        have := getline_snd_length_lt c cs
        simp only [List.length_cons] at this hlen
        omega

theorem receive_frame (b : List Char) (hlen : b.length < 2 ^ 64) :
    receiveMessage ("Content-Length: ".toList ++ natDigits b.length ++
      "\r\n\r\n".toList ++ b) = (Except.ok b, []) := by
  have hds_digit := natDigits_all_digits b.length
  have hds_ne := natDigits_ne_nil b.length
  have hclean : ∀ c ∈ natDigits b.length, isWsChar c = false :=
    fun c hc => isDigit_not_ws c (hds_digit c hc)
  have hfield : readNextMessageHeaderField
      ("Content-Length: ".toList ++ natDigits b.length ++ ['\x0d']) {} =
      ({ contentLength := b.length } : MessageHeader) := by
    have hsplit : "Content-Length: ".toList ++ natDigits b.length ++ ['\x0d']
        = "Content-Length".toList ++
          ':' :: (' ' :: (natDigits b.length ++ ['\x0d'])) := rfl
    rw [hsplit]
    simp only [readNextMessageHeaderField]
    rw [splitAtColon_append _ _ (by decide)]
    dsimp only
    rw [trimList_clean _ hds_ne hclean,
      show trimList ("Content-Length".toList) = "Content-Length".toList from
        by decide,
      if_pos rfl, fromCharsNat_natDigits b.length hlen]
  have hnotin : '\n' ∉ "Content-Length: ".toList ++ natDigits b.length ++
      ['\x0d'] := by
    intro hmem
    rcases List.mem_append.mp hmem with h1 | h1
    · rcases List.mem_append.mp h1 with h2 | h2
      · revert h2; decide
      · exact absurd (hds_digit _ h2) (by decide)
    · revert h1; decide
  have hgl : getline ('C' :: ("ontent-Length: ".toList ++ natDigits b.length ++
        "\r\n\r\n".toList ++ b))
      = ("Content-Length: ".toList ++ natDigits b.length ++ ['\x0d'],
         '\x0d' :: '\n' :: b) := by
    have hshape : 'C' :: ("ontent-Length: ".toList ++ natDigits b.length ++
          "\r\n\r\n".toList ++ b)
        = ("Content-Length: ".toList ++ natDigits b.length ++ ['\x0d']) ++
          '\n' :: ('\x0d' :: '\n' :: b) := by
      simp only [List.append_assoc]
      rfl
    rw [hshape]
    exact getline_append _ _ hnotin
  have hhdr : readMessageHeader ('C' :: ("ontent-Length: ".toList ++
        natDigits b.length ++ "\r\n\r\n".toList ++ b)) {} =
      (.ok { contentLength := b.length }, b) := by
    rw [readMessageHeader_step _ _ _ (by decide), hgl]
    dsimp only
    rw [hfield, readMessageHeader_term]
  have hform : "Content-Length: ".toList ++ natDigits b.length ++
      "\r\n\r\n".toList ++ b
      = 'C' :: ("ontent-Length: ".toList ++ natDigits b.length ++
        "\r\n\r\n".toList ++ b) := rfl
  rw [hform]
  simp only [receiveMessage]
  rw [hhdr]
  dsimp only
  rw [List.take_length, Nat.sub_self, List.replicate_zero, List.append_nil,
    List.drop_length]
  rw [show validateContentType
    ("application/vscode-jsonrpc; charset=utf-8".toList) = .ok () from
    by decide]

theorem isPrefixOf_append_left (p l r : List Char) (h : p.length ≤ l.length) :
    p.isPrefixOf (l ++ r) = p.isPrefixOf l := by
  induction p generalizing l with
  | nil => simp [List.isPrefixOf]
  | cons a as ih =>
    cases l with
    | nil => simp at h
    | cons b bs =>
      simp only [List.cons_append, List.isPrefixOf, List.append_eq]
      rw [ih bs (by simpa using h)]

theorem findSubstrFrom_append (pat l r : List Char) (i : Nat)
    (hno : ∀ t ∈ l.tails, t ≠ [] → pat.isPrefixOf (t ++ r) = false) :
    findSubstrFrom pat (l ++ r) i = findSubstrFrom pat r (i + l.length) := by
  induction l generalizing i with
  | nil => simp
  | cons a as ih =>
    rw [List.cons_append, findSubstrFrom]
    have h0 : pat.isPrefixOf (a :: (as ++ r)) = false := by
      have := hno (a :: as) ((List.mem_tails _ _).mpr (List.suffix_refl _))
        (List.cons_ne_nil a as)
      simpa using this
    rw [if_neg (by simp [h0])]
    rw [ih (i + 1) (fun t ht hne => hno t ((List.mem_tails _ _).mpr
      (((List.mem_tails _ _).mp ht).trans (List.suffix_cons a as))) hne)]
    congr 1
    simp only [List.length_cons]
    omega

theorem findSubstr_charset (cs : List Char) :
    findSubstr ("charset=".toList)
      ("application/vscode-jsonrpc; charset=".toList ++ cs) = some 28 := by
  have hform : "application/vscode-jsonrpc; charset=".toList ++ cs
      = "application/vscode-jsonrpc; ".toList ++
        ("charset=".toList ++ cs) := rfl
  have hconc : ∀ t ∈ ("application/vscode-jsonrpc; ".toList).tails, t ≠ [] →
      ("charset=".toList).isPrefixOf (t ++ "charset=".toList) = false := by
    decide
  rw [findSubstr, hform, findSubstrFrom_append _ _ _ _ (fun t ht hne => by
    rw [← List.append_assoc,
      isPrefixOf_append_left _ _ _ (by simp)]
    exact hconc t ht hne)]
  have hpre : ("charset=".toList).isPrefixOf ("charset=".toList ++ cs)
      = true := by
    rw [isPrefixOf_append_left _ _ _ (by simp)]
    decide
  show findSubstrFrom ("charset=".toList) ('c' :: ("harset=".toList ++ cs)) 28
    = some 28
  rw [findSubstrFrom]
  rw [if_pos (by exact_mod_cast hpre)]

theorem validateContentType_charset (cs : List Char)
    (htrim : trimList cs = cs) (hsemi : ';' ∉ cs)
    (h1 : cs ≠ "utf-8".toList) (h2 : cs ≠ "utf8".toList) :
    validateContentType ("application/vscode-jsonrpc; charset=".toList ++ cs) =
      .error (.ProtocolError
        ("Unsupported or invalid character encoding: " ++ String.mk cs)) := by
  have hpre : ("application/vscode-jsonrpc".toList).isPrefixOf
      ("application/vscode-jsonrpc; charset=".toList ++ cs) = true := by
    rw [isPrefixOf_append_left _ _ _ (by decide)]
    decide
  simp only [validateContentType]
  rw [if_pos (by exact_mod_cast hpre), findSubstr_charset]
  dsimp only
  rw [show (28 + 8 : Nat) =
    ("application/vscode-jsonrpc; charset=".toList).length from rfl]
  rw [List.drop_left]
  rw [takeWhile_all (fun x => decide (x ≠ ';')) cs (fun c hc =>
    decide_eq_true (show c ≠ ';' from fun heq => hsemi (heq ▸ hc)))]
  rw [htrim, if_neg (fun hor => hor.elim h1 h2)]

theorem eval_cex1 :
    receiveMessage ("Content-Length: 5\r\n\rXABCDE".toList) =
      (.error (.ProtocolError "Invalid message header format"),
        "XABCDE".toList) := by
  simp [receiveMessage, readMessageHeader, readNextMessageHeaderField,
    getline, splitAtColon, trimList, fromCharsNat, digitsToNat, isWsChar]

theorem eval_cex1_hdr :
    readMessageHeader ("Content-Length: 5\r\n\rXABCDE".toList) {} =
      (.error (.ProtocolError "Invalid message header format"),
        "XABCDE".toList) := by
  simp [readMessageHeader, readNextMessageHeaderField,
    getline, splitAtColon, trimList, fromCharsNat, digitsToNat, isWsChar]

/-! ## Claim theorems -/

/-- C1, counterexample: the claim says every `receiveMessage` failure with a
`ProtocolError` leaves the whole declared body consumed.  On the input
`"Content-Length: 5\r\n\rXABCDE"` the malformed header terminator (`\r` not
followed by `\n`) raises a `ProtocolError` after a `Content-Length` of 5 was
declared, yet none of the following body bytes is consumed: the remaining
stream is `"XABCDE"`, so the claim's universally quantified statement is
false. -/
theorem C1_counterexample :
    (receiveMessage ("Content-Length: 5\r\n\rXABCDE".toList)).1 =
      .error (.ProtocolError "Invalid message header format") ∧
    (receiveMessage ("Content-Length: 5\r\n\rXABCDE".toList)).2 =
      "XABCDE".toList ∧
    ¬ (∀ (s : List Char) (msg : String),
        (receiveMessage s).1 = .error (.ProtocolError msg) →
        ∃ hdr rest, readMessageHeader s {} = (Except.ok hdr, rest) ∧
          (receiveMessage s).2 = rest.drop hdr.contentLength) := by
  refine ⟨by rw [eval_cex1], by rw [eval_cex1], ?_⟩
  intro hall
  obtain ⟨hdr, rest, hh, -⟩ := hall ("Content-Length: 5\r\n\rXABCDE".toList)
    "Invalid message header format" (by rw [eval_cex1])
  rw [eval_cex1_hdr] at hh
  exact absurd hh (by simp)

/-- C1, amended: for every `receiveMessage` call that fails with a
`ProtocolError` raised after the header block was parsed successfully (that
is, during content-type/charset validation), the entire declared message
body has been consumed: the remaining stream is the stream right after the
header minus `contentLength` bytes, so a caller can continue reading
subsequent messages.  (A `ProtocolError` from a malformed header terminator
is instead raised before any body byte is consumed.) -/
theorem C1_theorem (s : List Char) (hdr : MessageHeader) (rest : List Char)
    (msg : String)
    (hh : readMessageHeader s {} = (Except.ok hdr, rest))
    (hp : (receiveMessage s).1 = .error (.ProtocolError msg)) :
    (receiveMessage s).2 = rest.drop hdr.contentLength := by
  match s with
  | [] =>
    rw [readMessageHeader_nil] at hh
    exact absurd hh (by simp)
  | c :: cs =>
    simp only [receiveMessage]
    rw [hh]
    dsimp only
    rcases hv : validateContentType hdr.contentType with u | e2 <;> rfl

/-- C1, witness: a message with `Content-Length: 5` and
`Content-Type: text/plain` followed by the body `hello` and the extra bytes
`NEXT` fails with a content-type `ProtocolError` and leaves exactly `NEXT`
unread. -/
theorem C1_witness :
    (receiveMessage
      ("Content-Length: 5\r\nContent-Type: text/plain\r\n\r\nhelloNEXT".toList)).2
      = "NEXT".toList := by
  have h := C1_theorem
    ("Content-Length: 5\r\nContent-Type: text/plain\r\n\r\nhelloNEXT".toList)
    { contentLength := 5, contentType := "text/plain".toList }
    ("helloNEXT".toList)
    "Unsupported or invalid content type: text/plain"
    (by simp [readMessageHeader, readNextMessageHeaderField, getline,
      splitAtColon, trimList, fromCharsNat, digitsToNat, isWsChar])
    (by simp [receiveMessage, readMessageHeader, readNextMessageHeaderField,
      getline, splitAtColon, trimList, fromCharsNat, digitsToNat, isWsChar,
      validateContentType, findSubstr, findSubstrFrom])
  simpa using h

/-- C2: `receiveMessage` fails with a `ConnectionError` (and never with a
`ProtocolError`) exactly when the stream is exhausted where more bytes were
required: no byte at all at the start of the call, or the stream running out
before a header field line or before reaching the first byte of the
blank-line header terminator.  (When the stream ends right after the
terminator's `\r`, the code instead reports the malformed terminator as a
`ProtocolError`, matching the spec's "carriage-return not immediately
followed by line-feed" rule; `exhaustsBeforeTerminator` is the spec-side
characterisation of the exhaustion condition.) -/
theorem C2_theorem (s : List Char) :
    exceptIsConn (receiveMessage s).1 = exhaustsBeforeTerminator s := by
  match s with
  | [] =>
    rw [exhaustsBeforeTerminator_nil]
    rfl
  | c :: cs =>
    have h := connErr_iff_fuel (c :: cs).length (c :: cs) {} (le_refl _)
    simp only [receiveMessage]
    rcases hres : readMessageHeader (c :: cs) {} with ⟨r, rest⟩
    rw [hres] at h
    match r with
    | .error e =>
      dsimp only
      exact h
    | .ok hdr =>
      dsimp only at h ⊢
      rcases hv : validateContentType hdr.contentType with u | e2
      · dsimp only
        have h2 := validateContentType_not_conn hdr.contentType
        rw [hv] at h2
        dsimp only [exceptIsConn] at h2 ⊢
        rw [← h]
        exact h2
      · dsimp only
        exact h

/-- C3: content-type validation.  A value whose prefix is not
`application/vscode-jsonrpc` is rejected with a `ProtocolError` whose
message text contains the offending value; a `charset` parameter that is
anything other than the case-sensitive literals `utf-8` or `utf8`
(e.g. `UTF-8`, `latin1`) is rejected with a `ProtocolError`; absence of the
charset parameter is accepted; and a message without any `Content-Type`
field is accepted (the defaulted value passes validation). -/
theorem C3_theorem (ct1 ct3 cs2 : List Char)
    (h1 : ("application/vscode-jsonrpc".toList).isPrefixOf ct1 = false)
    (h2a : trimList cs2 = cs2) (h2b : ';' ∉ cs2)
    (h2c : cs2 ≠ "utf-8".toList) (h2d : cs2 ≠ "utf8".toList)
    (h3a : ("application/vscode-jsonrpc".toList).isPrefixOf ct3 = true)
    (h3b : findSubstr ("charset=".toList) ct3 = none) :
    validateContentType ct1 = .error (.ProtocolError
      ("Unsupported or invalid content type: " ++ String.mk ct1)) ∧
    validateContentType
      ("application/vscode-jsonrpc; charset=".toList ++ cs2) =
      .error (.ProtocolError
        ("Unsupported or invalid character encoding: " ++ String.mk cs2)) ∧
    validateContentType ct3 = .ok () ∧
    validateContentType
      ("application/vscode-jsonrpc; charset=UTF-8".toList) =
      .error (.ProtocolError
        "Unsupported or invalid character encoding: UTF-8") ∧
    validateContentType
      ("application/vscode-jsonrpc; charset=latin1".toList) =
      .error (.ProtocolError
        "Unsupported or invalid character encoding: latin1") ∧
    validateContentType
      ("application/vscode-jsonrpc; charset=utf-8".toList) = .ok () ∧
    validateContentType
      ("application/vscode-jsonrpc;charset=utf8".toList) = .ok () ∧
    receiveMessage ("Content-Length: 2\r\n\r\nhi".toList) =
      (Except.ok ("hi".toList), []) := by
  refine ⟨?_, validateContentType_charset cs2 h2a h2b h2c h2d, ?_,
    by decide, by decide, by decide, by decide, ?_⟩
  · simp only [validateContentType]
    rw [if_neg (by simp only [h1]; exact Bool.false_ne_true)]
  · simp only [validateContentType]
    rw [if_pos h3a, h3b]
  · simp [receiveMessage, readMessageHeader, readNextMessageHeaderField,
      getline, splitAtColon, trimList, fromCharsNat, digitsToNat, isWsChar,
      validateContentType, findSubstr, findSubstrFrom]

/-- C3, witness: `text/plain` is rejected naming the value, the charset
`latin-1` is rejected naming the charset, and the bare protocol MIME value
is accepted. -/
theorem C3_witness :
    validateContentType ("text/plain".toList) = .error (.ProtocolError
      "Unsupported or invalid content type: text/plain") ∧
    validateContentType
      ("application/vscode-jsonrpc; charset=latin-1".toList) =
      .error (.ProtocolError
        "Unsupported or invalid character encoding: latin-1") ∧
    validateContentType ("application/vscode-jsonrpc".toList) = .ok () := by
  have h := C3_theorem ("text/plain".toList)
    ("application/vscode-jsonrpc".toList) ("latin-1".toList)
    (by decide) (by decide) (by decide) (by decide) (by decide)
    (by decide) (by decide)
  exact ⟨by simpa using h.1, by simpa using h.2.1, h.2.2.1⟩

/-- C4, counterexample: the claim says a zero or absent length never
reaches the body transfer step.  On the receive path there is no such
check: a message declaring `Content-Length: 0` parses its header to a zero
`contentLength`, performs the (zero-byte) body read and completes without
any error, handing the empty body to the JSON parser. -/
theorem C4_counterexample :
    readMessageHeader ("Content-Length: 0\r\n\r\n".toList) {} =
      (Except.ok { contentLength := 0 }, []) ∧
    receiveMessage ("Content-Length: 0\r\n\r\n".toList) =
      (Except.ok [], []) := by
  constructor <;>
    simp [receiveMessage, readMessageHeader, readNextMessageHeaderField,
      getline, splitAtColon, trimList, fromCharsNat, digitsToNat,
      validateContentType, findSubstr, findSubstrFrom, isWsChar]

/-- C4, amended: only the send path enforces the positivity invariant —
`writeMessage` fails its assertion exactly when the body is empty, so a
zero length never reaches the body write; on the receive path the
`contentLength` is not validated, and a declared zero length proceeds
through the (zero-byte) body read without error. -/
theorem C4_theorem :
    (∀ (content : List Char) (o : OutStream),
      writeMessage content o = none ↔ content = []) ∧
    receiveMessage ("Content-Length: 0\r\n\r\n".toList) =
      (Except.ok [], []) := by
  refine ⟨writeMessage_none_iff, ?_⟩
  simp [receiveMessage, readMessageHeader, readNextMessageHeaderField,
    getline, splitAtColon, trimList, fromCharsNat, digitsToNat,
    validateContentType, findSubstr, findSubstrFrom, isWsChar]

/-- C5: every `sendMessage` and `sendMessageBatch` call (with the external
serialization abstracted) writes exactly `Content-Length: <n>\r\n\r\n`
followed by the body, where `<n>` is the body's exact byte length; no
`Content-Type` line is emitted, and the output stream is completely flushed
after the body. -/
theorem C5_theorem (Msg : Type) (stringifyToJson : Msg → List Char)
    (stringifyBatch : List Msg → List Char) (m : Msg) (batch : List Msg)
    (o : OutStream) (h1 : stringifyToJson m ≠ [])
    (h2 : stringifyBatch batch ≠ []) :
    sendMessage stringifyToJson m o = some ⟨[],
      o.flushed ++ o.buffered ++ "Content-Length: ".toList ++
        natDigits (stringifyToJson m).length ++ "\r\n\r\n".toList ++
        stringifyToJson m⟩ ∧
    sendMessageBatch stringifyBatch batch o = some ⟨[],
      o.flushed ++ o.buffered ++ "Content-Length: ".toList ++
        natDigits (stringifyBatch batch).length ++ "\r\n\r\n".toList ++
        stringifyBatch batch⟩ := by
  constructor
  · unfold sendMessage writeJsonMessage
    rw [if_neg h1]
    exact writeMessage_eq _ _ h1
  · unfold sendMessageBatch writeJsonMessage
    rw [if_neg h2]
    exact writeMessage_eq _ _ h2

/-- C5, witness: sending the serialized body `null` flushes exactly
`Content-Length: 4\r\n\r\nnull`, and a batch serialized as `[]` flushes
exactly `Content-Length: 2\r\n\r\n[]`. -/
theorem C5_witness :
    sendMessage (fun _ : Unit => "null".toList) () ⟨[], []⟩ =
      some ⟨[], "Content-Length: 4\r\n\r\nnull".toList⟩ ∧
    sendMessageBatch (fun _ : List Unit => "[]".toList) [] ⟨[], []⟩ =
      some ⟨[], "Content-Length: 2\r\n\r\n[]".toList⟩ := by
  have h4 : natDigits 4 = ['4'] := by
    rw [natDigits]
    decide
  have h2d : natDigits 2 = ['2'] := by
    rw [natDigits]
    decide
  have h := C5_theorem Unit (fun _ => "null".toList) (fun _ => "[]".toList)
    () [] ⟨[], []⟩ (by decide) (by decide)
  refine ⟨?_, ?_⟩
  · rw [h.1, show (("null".toList).length) = 4 from rfl, h4]
    decide
  · rw [h.2, show (("[]".toList).length) = 2 from rfl, h2d]
    decide

/-- C6, counterexample: the claim says each non-empty header line must
contain a `:` separator.  The code never enforces this: a line without a
colon is silently ignored (the header is unchanged and no error is
raised), and a message containing such a line still parses. -/
theorem C6_counterexample :
    readNextMessageHeaderField ("garbage".toList) {} = ({} : MessageHeader) ∧
    receiveMessage ("garbage\r\nContent-Length: 2\r\n\r\nhi".toList) =
      (Except.ok ("hi".toList), []) := by
  refine ⟨by decide, ?_⟩
  simp [receiveMessage, readMessageHeader, readNextMessageHeaderField,
    getline, splitAtColon, trimList, fromCharsNat, digitsToNat, isWsChar,
    validateContentType, findSubstr, findSubstrFrom]

/-- C6, amended: a header line is split at its first `:` when one exists
(lines without a colon are silently ignored, not rejected); the trimmed
text before the colon is the field name and the trimmed text after it the
value; a `Content-Length` field is parsed as an unsigned integer
overwriting any previous value, a `Content-Type` field stores the trimmed
value verbatim, and an unrecognized field name leaves the header
unchanged. -/
theorem C6_theorem (k v junk : List Char) (hdr : MessageHeader)
    (hk : ':' ∉ k) (hjunk : ':' ∉ junk) :
    readNextMessageHeaderField junk hdr = hdr ∧
    readNextMessageHeaderField (k ++ ':' :: v) hdr =
      (if trimList k = "Content-Length".toList then
        match fromCharsNat (trimList v) with
        | some n => { hdr with contentLength := n }
        | none => hdr
      else if trimList k = "Content-Type".toList then
        { hdr with contentType := trimList v }
      else hdr) := by
  constructor
  · simp only [readNextMessageHeaderField]
    rw [splitAtColon_eq_none junk hjunk]
  · simp only [readNextMessageHeaderField]
    rw [splitAtColon_append k v hk]

/-- C6, witness: a colon-less line and an unknown field are ignored, a
`Content-Length` line overwrites the previous value, and a `Content-Type`
line stores the trimmed value. -/
theorem C6_witness :
    readNextMessageHeaderField ("garbage-no-colon".toList)
      ({ contentLength := 7 } : MessageHeader) = { contentLength := 7 } ∧
    readNextMessageHeaderField ("Content-Length: 42".toList)
      ({ contentLength := 7 } : MessageHeader) = { contentLength := 42 } ∧
    readNextMessageHeaderField ("Content-Type: text/plain".toList)
      ({} : MessageHeader) = { contentType := "text/plain".toList } ∧
    readNextMessageHeaderField ("X-Custom: zzz".toList)
      ({ contentLength := 7 } : MessageHeader) = { contentLength := 7 } := by
  have h1 := C6_theorem ("Content-Length".toList) (" 42".toList)
    ("garbage-no-colon".toList) { contentLength := 7 } (by decide) (by decide)
  have h2 := C6_theorem ("Content-Type".toList) (" text/plain".toList)
    ("x".toList) {} (by decide) (by decide)
  have h3 := C6_theorem ("X-Custom".toList) (" zzz".toList)
    ("x".toList) { contentLength := 7 } (by decide) (by decide)
  refine ⟨h1.1, ?_, ?_, ?_⟩
  · rw [show "Content-Length: 42".toList =
      "Content-Length".toList ++ ':' :: (" 42".toList) from rfl, h1.2]
    decide
  · rw [show "Content-Type: text/plain".toList =
      "Content-Type".toList ++ ':' :: (" text/plain".toList) from rfl, h2.2]
    decide
  · rw [show "X-Custom: zzz".toList =
      "X-Custom".toList ++ ':' :: (" zzz".toList) from rfl, h3.2]
    decide

/-- C7: round-trip — with the external JSON codec and message model acting
as mutual inverses (and producing a non-empty serialization), sending a
message and then receiving from the bytes that the send flushed yields
exactly the serialized body, which decodes back to a message equal to the
one sent. -/
theorem C7_theorem (Msg : Type) (stringifyToJson : Msg → List Char)
    (parseFromJson : List Char → Option Msg)
    (hinv : ∀ x, parseFromJson (stringifyToJson x) = some x)
    (m : Msg) (o : OutStream) (hbuf : o.buffered = [])
    (hne : stringifyToJson m ≠ [])
    (hlen : (stringifyToJson m).length < 2 ^ 64) :
    ∃ o2, sendMessage stringifyToJson m o = some o2 ∧
      receiveMessage (o2.flushed.drop o.flushed.length) =
        (Except.ok (stringifyToJson m), []) ∧
      parseFromJson (stringifyToJson m) = some m := by
  refine ⟨⟨[], o.flushed ++ o.buffered ++ "Content-Length: ".toList ++
    natDigits (stringifyToJson m).length ++ "\r\n\r\n".toList ++
    stringifyToJson m⟩, ?_, ?_, hinv m⟩
  · unfold sendMessage writeJsonMessage
    rw [if_neg hne]
    exact writeMessage_eq _ _ hne
  · dsimp only
    rw [hbuf, List.append_nil]
    have hd : (o.flushed ++ "Content-Length: ".toList ++
        natDigits (stringifyToJson m).length ++ "\r\n\r\n".toList ++
        stringifyToJson m).drop o.flushed.length
        = "Content-Length: ".toList ++
          natDigits (stringifyToJson m).length ++ "\r\n\r\n".toList ++
          stringifyToJson m := by
      simp only [List.append_assoc]
      rw [List.drop_left]
    rw [hd]
    exact receive_frame (stringifyToJson m) hlen

/-- C7, witness: a message serialized as `null` round-trips through an
empty stream pair and decodes back to itself. -/
theorem C7_witness :
    ∃ o2, sendMessage (fun _ : Unit => "null".toList) () ⟨[], []⟩ =
        some o2 ∧
      receiveMessage (o2.flushed.drop (([] : List Char).length)) =
        (Except.ok ("null".toList), []) ∧
      (fun s => if s = "null".toList then some () else none)
        ("null".toList) = some () := by
  exact C7_theorem Unit (fun _ => "null".toList)
    (fun s => if s = "null".toList then some () else none)
    (fun x => by simp) () ⟨[], []⟩ rfl (by decide) (by decide)

/-- C8: a send whose JSON serialization is empty fails the internal
assertion (modelled as `none`) instead of writing a zero-length framed
body — and this is the only way `sendMessage` can fail. -/
theorem C8_theorem (Msg : Type) (stringifyToJson : Msg → List Char)
    (m : Msg) (o : OutStream) :
    sendMessage stringifyToJson m o = none ↔ stringifyToJson m = [] := by
  unfold sendMessage writeJsonMessage
  by_cases h : stringifyToJson m = []
  · simp [h]
  · rw [if_neg h, writeMessage_none_iff]

/-- C10, counterexample: the claim says any `Content-Length` value that is
not a valid unsigned integer leaves `contentLength` unchanged.  The value
`5x` is not a valid unsigned integer, yet `from_chars` parses its leading
digit run and the field is overwritten with 5 instead of keeping the
previous value 7. -/
theorem C10_counterexample :
    readNextMessageHeaderField ("Content-Length: 5x".toList)
      ({ contentLength := 7 } : MessageHeader) = { contentLength := 5 } ∧
    ({ contentLength := 5 } : MessageHeader) ≠ { contentLength := 7 } := by
  exact ⟨by decide, by decide⟩

/-- C10, amended: when the trimmed `Content-Length` value has no parseable
leading digit run (for example non-numeric text), the conversion failure is
silently ignored — no error is raised for the line and `contentLength`
retains its previous value, and a later well-formed `Content-Length` line
still takes effect; a value with a leading digit run followed by other text
instead stores that run's value. -/
theorem C10_theorem (v : List Char) (hdr : MessageHeader)
    (hv : fromCharsNat (trimList v) = none) :
    readNextMessageHeaderField ("Content-Length".toList ++ ':' :: v) hdr
      = hdr ∧
    receiveMessage
      ("Content-Length: notanumber\r\nContent-Length: 2\r\n\r\nok".toList) =
      (Except.ok ("ok".toList), []) := by
  constructor
  · simp only [readNextMessageHeaderField]
    rw [splitAtColon_append _ _ (by decide)]
    dsimp only
    rw [show trimList ("Content-Length".toList) = "Content-Length".toList
      from by decide, if_pos rfl, hv]
  · simp [receiveMessage, readMessageHeader, readNextMessageHeaderField,
      getline, splitAtColon, trimList, fromCharsNat, digitsToNat, isWsChar,
      validateContentType, findSubstr, findSubstrFrom]

/-- C10, witness: the non-numeric value `notanumber` leaves a previous
`contentLength` of 7 unchanged. -/
theorem C10_witness :
    readNextMessageHeaderField ("Content-Length: notanumber".toList)
      ({ contentLength := 7 } : MessageHeader) = { contentLength := 7 } := by
  have h := (C10_theorem (" notanumber".toList) { contentLength := 7 }
    (by decide)).1
  exact h

end LspConn
